import Mathlib

/-!
Shallow embedding of the Palpiteiro web-app core (src/app.py): the
formation-layout step (`transform_data`), the lineup request
(`get_line_up`), the per-player asset fetch (`transform_row`) and the
scene composition (`add_player_image` plus the gather loop of `main`).
Coordinates, prices and points are modelled as rationals; image bytes and
decoded images are modelled as opaque strings, with decoding an arbitrary
partial function supplied as a parameter.
-/

namespace Palpiteiro

/-- A raw player record as it arrives from the lineup service (one record
of the "players" or "bench" collection), before the roster-type tag is
attached. -/
structure RawPlayer where
  id : Nat
  name : String
  pos : String
  price : ℚ
  points : ℚ
  photo : String
  club_badge : String
  deriving DecidableEq

/-- A player row after `get_line_up` tagged it with its roster collection
(`type` is the literal string written by the code: "players" for the
starter collection, "bench" for the bench collection). -/
structure Player where
  id : Nat
  name : String
  pos : String
  type : String
  price : ℚ
  points : ℚ
  photo : String
  club_badge : String
  deriving DecidableEq

/-- `players["type"] = "players"` / `bench["type"] = "bench"`: tag a raw
record with its collection name. -/
def tagType (t : String) (r : RawPlayer) : Player :=
  { id := r.id, name := r.name, pos := r.pos, type := t,
    price := r.price, points := r.points,
    photo := r.photo, club_badge := r.club_badge }

/-- The generic failure message shown by the app (`ERROR_MSG`). -/
def ERROR_MSG : String := "Sorry, something went wrong. Please try again later."

/-- `get_line_up` (src/app.py lines 32-70), modelled over the observable
response: transport status code, logical status, and the two decoded
player collections.  `st.error  st.stop` is modelled as `Except.error`
carrying the surfaced message; success returns the concatenation of the
tagged starter and bench rows. -/
def get_line_up (status_code : Nat) (status : String)
    (players bench : List RawPlayer) : Except String (List Player) :=
  if status_code ≥ 300 then Except.error ERROR_MSG
  else if status ≠ "SUCCEEDED" then Except.error ERROR_MSG
  else Except.ok (players.map (tagType "players") ++ bench.map (tagType "bench"))

/-- The (position, type) group of a player within the data frame:
`data.groupby(["position", "type"])`. -/
def groupOf (l : List Player) (p : Player) : List Player :=
  l.filter (fun q => q.pos = p.pos ∧ q.type = p.type)

/-- `data.groupby(["position", "type"])["id"].rank().astype(int)`:
pandas `rank` with the default average method over the ids of the
player's group, truncated to an integer.  For a group with `less` ids
strictly below and `eq` ids equal to `p.id` the average rank is
`less + (eq + 1) / 2`; truncation gives `(2 * less + eq + 1) / 2` in
integer division.  When ids are distinct this is `less + 1`. -/
def rankOf (l : List Player) (p : Player) : Nat :=
  (2 * ((groupOf l p).filter (fun q => q.id < p.id)).length
    + ((groupOf l p).filter (fun q => q.id = p.id)).length + 1) / 2

/-- The plot key `f"{type}-{position}-{rank}"` built by `transform_data`. -/
def plotKey (l : List Player) (p : Player) : String :=
  p.type ++ "-" ++ p.pos ++ "-" ++ toString (rankOf l p)

/-- The position map `pos.json`: an association list from plot key to a
normalized coordinate pair. -/
abbrev PosMap : Type := List (String × ℚ × ℚ)

/-- `pos[x]`: dictionary lookup; a missing key raises a `KeyError`
carrying the key itself, modelled as `Except.error` naming the key. -/
def lookupPos (pos : PosMap) (k : String) : Except String (ℚ × ℚ) :=
  match pos.find? (fun e => e.1 = k) with
  | some e => Except.ok e.2
  | none => Except.error k

/-- `data["points"].max()`: the maximum points over the whole
(concatenated starters plus bench) data frame. -/
def maxPoints (l : List Player) : Option ℚ :=
  (l.map Player.points).maximum

/-- One laid-out row produced by `transform_data`. -/
structure LaidOutPlayer where
  player : Player
  rank : Nat
  plot : String
  x : ℚ
  y : ℚ
  badge_x : ℚ
  badge_y : ℚ
  captain : Bool
  name : String
  deriving DecidableEq

/-- Lay out a single row: rank, plot key, coordinate lookup (failing with
the missing key), badge offsets, and optional captain marking with the
`"(C) "` name marker. -/
def layoutPlayer (l : List Player) (pos : PosMap) (captain : Bool)
    (p : Player) : Except String LaidOutPlayer :=
  match lookupPos pos (plotKey l p) with
  | Except.error e => Except.error e
  | Except.ok c =>
    Except.ok { player := p, rank := rankOf l p, plot := plotKey l p,
                x := c.1, y := c.2,
                badge_x := c.1 + 25 / 1000, badge_y := c.2 - 75 / 1000,
                captain := captain && decide (maxPoints l = some p.points),
                name := if captain && decide (maxPoints l = some p.points)
                  then "(C) " ++ p.name else p.name }

/-- Lay out the rows in order, failing at the first row whose plot key is
missing from the position map. -/
def layoutRows (l : List Player) (pos : PosMap) (captain : Bool) :
    List Player → Except String (List LaidOutPlayer)
  | [] => Except.ok []
  | p :: ps =>
    match layoutPlayer l pos captain p with
    | Except.error e => Except.error e
    | Except.ok lo =>
      match layoutRows l pos captain ps with
      | Except.error e => Except.error e
      | Except.ok rest => Except.ok (lo :: rest)

/-- `transform_data` (src/app.py lines 73-95): rank within
(position, type) groups by id, build plot keys, look up coordinates
(a missing key fails the whole step), compute badge offsets, and when
`captain` is set mark every row attaining the lineup-wide maximum points
and place the `"(C) "` marker before its name. -/
def transform_data (l : List Player) (captain : Bool) (pos : PosMap) :
    Except String (List LaidOutPlayer) :=
  layoutRows l pos captain l

/-! ## Asset fetching (download_image / transform_row) -/

/-- The deterministic asset source: maps a URL to the returned raw bytes
(modelled opaquely as a string). -/
abbrev AssetSource : Type := String → String

/-- `transform_row` (src/app.py lines 154-159): fetch the photo and the
club badge of one row over a fresh session; the result depends only on
the row itself and the asset source. -/
def transform_row (fetch : AssetSource) (p : Player) : Nat × String × String :=
  (p.id, fetch p.photo, fetch p.club_badge)

/-- The per-player asset mapping assembled from the futures: the rows are
consumed in some completion order `order`; the mapping answers, for a
player id, the `{photo, club_badge}` bytes of the first gathered result
carrying that id. -/
def fetchMapping (fetch : AssetSource) (order : List Player) (i : Nat) :
    Option (String × String) :=
  ((order.map (transform_row fetch)).find? (fun e => e.1 = i)).map (fun e => e.2)

/-! ## Composition (add_player_image and the gather loop of main) -/

/-- An image decoder: `Image.open` either yields a decoded image
(modelled opaquely as a string) or raises `UnidentifiedImageError`. -/
abbrev Decoder : Type := String → Option String

/-- One `fig.add_layout_image` overlay. -/
structure ImageLayer where
  src : String
  x : ℚ
  y : ℚ
  sizex : ℚ
  sizey : ℚ
  xanchor : String
  yanchor : String
  deriving DecidableEq

/-- One `fig.add_trace(go.Scatter(...))` hit target: an invisible marker
at the coordinate with the display name as persistent text and the price
as hover content. -/
structure TraceLayer where
  x : ℚ
  y : ℚ
  mode : String
  marker_size : Nat
  marker_color : String
  text : String
  hover : String
  deriving DecidableEq

/-- The mutable plotly figure: ordered lists of image overlays and of
traces. -/
structure Fig where
  images : List ImageLayer
  traces : List TraceLayer
  deriving DecidableEq

def Fig.addImage (f : Fig) (i : ImageLayer) : Fig :=
  { f with images := f.images ++ [i] }

def Fig.addTrace (f : Fig) (t : TraceLayer) : Fig :=
  { f with traces := f.traces ++ [t] }

/-- The photo overlay: centered at the coordinate, 15% of each axis. -/
def photoLayer (img : String) (x y : ℚ) : ImageLayer :=
  { src := img, x := x, y := y, sizex := 15 / 100, sizey := 15 / 100,
    xanchor := "center", yanchor := "middle" }

/-- The emblem overlay next to a decodable photo: top-left anchored at
offset (+0.01, -0.015) from the coordinate, 7.5% of each axis. -/
def logoLayer (img : String) (x y : ℚ) : ImageLayer :=
  { src := img, x := x + 1 / 100, y := y - 15 / 1000,
    sizex := 75 / 1000, sizey := 75 / 1000,
    xanchor := "left", yanchor := "top" }

/-- The emblem-only fallback overlay: centered at the coordinate, 15% of
each axis. -/
def fallbackLayer (img : String) (x y : ℚ) : ImageLayer :=
  { src := img, x := x, y := y, sizex := 15 / 100, sizey := 15 / 100,
    xanchor := "center", yanchor := "middle" }

/-- The hit-target trace attached for a player. -/
def hitTarget (x y : ℚ) (name : String) (price : ℚ) : TraceLayer :=
  { x := x, y := y, mode := "markers+text", marker_size := 50,
    marker_color := "rgba(0,0,0,0)", text := name,
    hover := "$" ++ toString price ++ "<extra></extra>" }

/-- `add_player_image` (src/app.py lines 98-146), faithful to the
control flow: the try block opens and places the photo then opens and
places the emblem; `UnidentifiedImageError` from either open lands in
the handler, which opens the emblem again and places it alone centered
at 15%; the handler's own open is unguarded, so an undecodable emblem
escapes (with the figure as mutated so far and no trace added).  The
returned flag is true when the exception escaped. -/
def add_player_image (decode : Decoder) (fig : Fig) (x y : ℚ)
    (name : String) (photo logo : String) (price : ℚ) : Fig × Bool :=
  let tryResult : Fig × Bool :=
    match decode photo with
    | none => (fig, true)
    | some img =>
      let fig1 := fig.addImage (photoLayer img x y)
      match decode logo with
      | none => (fig1, true)
      | some limg => (fig1.addImage (logoLayer limg x y), false)
  let afterHandler : Fig × Bool :=
    if tryResult.2 then
      match decode logo with
      | none => (tryResult.1, true)
      | some limg => (tryResult.1.addImage (fallbackLayer limg x y), false)
    else tryResult
  if afterHandler.2 then afterHandler
  else (afterHandler.1.addTrace (hitTarget x y name price), false)

/-- The gather loop of `main` (src/app.py lines 236-250): rows are
consumed in the order the futures complete and drawn onto the shared
figure; an escaping exception aborts the loop with the figure as mutated
so far. -/
def composeAll (decode : Decoder) (fig : Fig) :
    List LaidOutPlayer → Fig × Bool
  | [] => (fig, false)
  | r :: rs =>
    let step := add_player_image decode fig r.x r.y r.name
      r.player.photo r.player.club_badge r.player.price
    if step.2 then (step.1, true) else composeAll decode step.1 rs

/-- The background layer added before the gather loop. -/
def backgroundLayer : ImageLayer :=
  { src := "pitch.png", x := 0, y := 0, sizex := 1, sizey := 1,
    xanchor := "left", yanchor := "bottom" }

/-- The initial figure: the stretched pitch background, no traces. -/
def initialFig : Fig := { images := [backgroundLayer], traces := [] }

/-- The image layers `add_player_image` adds for one laid-out row when
the emblem decodes (so that no exception escapes). -/
def playerLayers (decode : Decoder) (r : LaidOutPlayer) : List ImageLayer :=
  match decode r.player.photo, decode r.player.club_badge with
  | some i, some j => [photoLayer i r.x r.y, logoLayer j r.x r.y]
  | none, some j => [fallbackLayer j r.x r.y]
  | _, none => []

/-- The hit-target trace added for one laid-out row. -/
def playerTrace (r : LaidOutPlayer) : TraceLayer :=
  hitTarget r.x r.y r.name r.player.price

/-- A sample decoder for concrete instances: exactly two decodable byte
strings, everything else raises. -/
def demoDecoder : Decoder := fun b =>
  if b = "goodphoto" then some "photoimg"
  else if b = "goodlogo" then some "logoimg"
  else none

/-- A starter midfielder for concrete instances. -/
def midfielder (i : Nat) (nm : String) (pts : ℚ) : Player :=
  { id := i, name := nm, pos := "midfielder", type := "players", price := 10,
    points := pts, photo := "goodphoto", club_badge := "goodlogo" }

/-- A bench midfielder for concrete instances. -/
def benchMid (i : Nat) (nm : String) (pts : ℚ) : Player :=
  { id := i, name := nm, pos := "midfielder", type := "bench", price := 10,
    points := pts, photo := "goodphoto", club_badge := "goodlogo" }

/-- The three-midfielder lineup of the end-to-end example: ids
[101, 102, 103] with points [5, 9, 5]. -/
def demoLineup : List Player :=
  [midfielder 101 "Alpha" 5, midfielder 102 "Beta" 9, midfielder 103 "Gamma" 5]

/-- A position map holding the three starter-midfielder slots the demo
lineup needs (keyed as the code keys them). -/
def demoPos : PosMap :=
  [("players-midfielder-1", (1 / 4, 1 / 2)),
   ("players-midfielder-2", (2 / 4, 1 / 2)),
   ("players-midfielder-3", (3 / 4, 1 / 2))]

/-- A four-player lineup (three starters and one bench player) with
points [10, 8, 10, 5]: two players attain the lineup-wide maximum. -/
def demoLineup4 : List Player :=
  [midfielder 1 "P1" 10, midfielder 2 "P2" 8, midfielder 3 "P3" 10,
   benchMid 4 "P4" 5]

/-- A position map for `demoLineup4`: the three starter slots plus one
bench slot. -/
def demoPos4 : PosMap := demoPos ++ [("bench-midfielder-1", (1 / 2, 0))]

/-- The laid-out result of the four-player demo (captaining enabled). -/
def demoOut4 : List LaidOutPlayer :=
  (transform_data demoLineup4 true demoPos4).toOption.getD []

/-- A simple laid-out row for concrete composition instances. -/
def demoRow (i : Nat) (nm : String) (x y : ℚ) : LaidOutPlayer :=
  { player := midfielder i nm 5, rank := 1, plot := "players-midfielder-1",
    x := x, y := y, badge_x := x, badge_y := y, captain := false, name := nm }

/-! ## Case analysis of add_player_image -/

lemma add_player_image_both {decode : Decoder} {fig : Fig} {x y : ℚ}
    {name photo logo : String} {price : ℚ} {i j : String}
    (hp : decode photo = some i) (hl : decode logo = some j) :
    add_player_image decode fig x y name photo logo price =
      (((fig.addImage (photoLayer i x y)).addImage (logoLayer j x y)).addTrace
        (hitTarget x y name price), false) := by
  simp [add_player_image, hp, hl]

lemma add_player_image_fallback {decode : Decoder} {fig : Fig} {x y : ℚ}
    {name photo logo : String} {price : ℚ} {j : String}
    (hp : decode photo = none) (hl : decode logo = some j) :
    add_player_image decode fig x y name photo logo price =
      ((fig.addImage (fallbackLayer j x y)).addTrace (hitTarget x y name price),
        false) := by
  simp [add_player_image, hp, hl]

lemma add_player_image_escape_photoOk {decode : Decoder} {fig : Fig} {x y : ℚ}
    {name photo logo : String} {price : ℚ} {i : String}
    (hp : decode photo = some i) (hl : decode logo = none) :
    add_player_image decode fig x y name photo logo price =
      (fig.addImage (photoLayer i x y), true) := by
  simp [add_player_image, hp, hl]

lemma add_player_image_escape_photoBad {decode : Decoder} {fig : Fig} {x y : ℚ}
    {name photo logo : String} {price : ℚ}
    (hp : decode photo = none) (hl : decode logo = none) :
    add_player_image decode fig x y name photo logo price = (fig, true) := by
  simp [add_player_image, hp, hl]

/-! ## C10: an undecodable emblem escapes composition -/

/-- C10: for every player whose emblem bytes are not decodable, the
decode error escapes `add_player_image`: the escape flag is set and no
hit-target is attached; when the photo was decodable the photo overlay
had already been added to the figure, and when it was not the figure is
left untouched. -/
theorem claim_C10 (decode : Decoder) (fig : Fig) (x y : ℚ)
    (name photo logo : String) (price : ℚ) (hl : decode logo = none) :
    (add_player_image decode fig x y name photo logo price).2 = true
    ∧ (add_player_image decode fig x y name photo logo price).1.traces = fig.traces
    ∧ (∀ i, decode photo = some i →
        (add_player_image decode fig x y name photo logo price).1.images
          = fig.images ++ [photoLayer i x y])
    ∧ (decode photo = none →
        (add_player_image decode fig x y name photo logo price).1 = fig) := by
  cases hp : decode photo with
  | none =>
    rw [add_player_image_escape_photoBad hp hl]
    exact ⟨rfl, rfl, fun i h => by simp [hp] at h, fun _ => rfl⟩
  | some i =>
    rw [add_player_image_escape_photoOk hp hl]
    refine ⟨rfl, rfl, fun i' h => ?_, fun h => by simp [hp] at h⟩
    injection h with hi
    subst hi
    rfl

/-- C10 witness: a concrete player whose photo decodes but whose emblem
does not; the escape flag is set, no trace is added, and the photo
overlay is already on the figure. -/
theorem claim_C10_witness :
    demoDecoder "badlogo" = none
    ∧ ((add_player_image demoDecoder initialFig 0 0 "n" "goodphoto" "badlogo" 1).2 = true
      ∧ (add_player_image demoDecoder initialFig 0 0 "n" "goodphoto" "badlogo" 1).1.traces
          = initialFig.traces
      ∧ (∀ i, demoDecoder "goodphoto" = some i →
          (add_player_image demoDecoder initialFig 0 0 "n" "goodphoto" "badlogo" 1).1.images
            = initialFig.images ++ [photoLayer i 0 0])
      ∧ (demoDecoder "goodphoto" = none →
          (add_player_image demoDecoder initialFig 0 0 "n" "goodphoto" "badlogo" 1).1
            = initialFig)) :=
  ⟨rfl, claim_C10 demoDecoder initialFig 0 0 "n" "goodphoto" "badlogo" 1 rfl⟩

/-! ## C6: photo-decode fallback (corrected: needs a decodable emblem) -/

/-- C6 counterexample: a player whose photo bytes are undecodable but
whose emblem bytes are also undecodable; contrary to the claim, the
decode exception escapes and the scene does not contain exactly one
image overlay for the player. -/
theorem claim_C6_counterexample :
    demoDecoder "badphoto" = none
    ∧ ¬ ((add_player_image demoDecoder initialFig 0 0 "n" "badphoto" "badlogo" 1).2 = false
        ∧ (add_player_image demoDecoder initialFig 0 0 "n" "badphoto" "badlogo" 1).1.images.length
            = initialFig.images.length + 1) := by
  exact ⟨rfl, by decide⟩

/-- C6 amended: for every player whose photo bytes are not decodable but
whose emblem bytes are decodable, composition recovers locally: exactly
one image overlay is added for the player — the emblem centered at the
coordinate at 15% size — the photo overlay is skipped entirely and no
decode exception escapes. -/
theorem claim_C6 (decode : Decoder) (fig : Fig) (x y : ℚ)
    (name photo logo : String) (price : ℚ)
    (hp : decode photo = none) (j : String) (hl : decode logo = some j) :
    (add_player_image decode fig x y name photo logo price).1.images
      = fig.images ++
        [{ src := j, x := x, y := y, sizex := 15 / 100, sizey := 15 / 100,
           xanchor := "center", yanchor := "middle" }]
    ∧ (add_player_image decode fig x y name photo logo price).2 = false := by
  rw [add_player_image_fallback hp hl]
  exact ⟨rfl, rfl⟩

/-- C6 witness: a concrete player with an undecodable photo and a
decodable emblem gets exactly the emblem overlay, centered, at 15%. -/
theorem claim_C6_witness :
    demoDecoder "badphoto" = none
    ∧ demoDecoder "goodlogo" = some "logoimg"
    ∧ ((add_player_image demoDecoder initialFig 0 0 "n" "badphoto" "goodlogo" 1).1.images
        = initialFig.images ++
          [{ src := "logoimg", x := 0, y := 0, sizex := 15 / 100, sizey := 15 / 100,
             xanchor := "center", yanchor := "middle" }]
      ∧ (add_player_image demoDecoder initialFig 0 0 "n" "badphoto" "goodlogo" 1).2 = false) :=
  ⟨rfl, rfl, claim_C6 demoDecoder initialFig 0 0 "n" "badphoto" "goodlogo" 1 rfl "logoimg" rfl⟩

/-! ## C7: decodable-photo placement and the hit-target (corrected) -/

/-- C7 counterexample: a player with a decodable photo but an
undecodable emblem gets no hit-target at all — contrary to the claim
that every player gets exactly one hit-target. -/
theorem claim_C7_counterexample :
    demoDecoder "goodphoto" = some "photoimg"
    ∧ ¬ ((add_player_image demoDecoder initialFig 0 0 "n" "goodphoto" "badlogo" 1).1.traces.length
          = initialFig.traces.length + 1) := by
  exact ⟨rfl, by decide⟩

/-- C7 amended: for every player whose emblem bytes are decodable, no
exception escapes and exactly one invisible hit-target is attached at
the coordinate, carrying the display name as persistent text and the
price as hover content; when the photo is also decodable the photo is
placed centered at the coordinate at 15% of each axis and the emblem
top-left anchored at offset (+0.01, -0.015) at 7.5% of each axis; at
most two image overlays are added for the player. -/
theorem claim_C7 (decode : Decoder) (fig : Fig) (x y : ℚ)
    (name photo logo : String) (price : ℚ)
    (j : String) (hl : decode logo = some j) :
    (add_player_image decode fig x y name photo logo price).2 = false
    ∧ (add_player_image decode fig x y name photo logo price).1.traces
        = fig.traces ++
          [{ x := x, y := y, mode := "markers+text", marker_size := 50,
             marker_color := "rgba(0,0,0,0)", text := name,
             hover := "$" ++ toString price ++ "<extra></extra>" }]
    ∧ (∀ i, decode photo = some i →
        (add_player_image decode fig x y name photo logo price).1.images
          = fig.images ++
            [{ src := i, x := x, y := y, sizex := 15 / 100, sizey := 15 / 100,
               xanchor := "center", yanchor := "middle" },
             { src := j, x := x + 1 / 100, y := y - 15 / 1000, sizex := 75 / 1000,
               sizey := 75 / 1000, xanchor := "left", yanchor := "top" }])
    ∧ (add_player_image decode fig x y name photo logo price).1.images.length
        ≤ fig.images.length + 2 := by
  cases hp : decode photo with
  | none =>
    rw [add_player_image_fallback hp hl]
    refine ⟨rfl, rfl, fun i h => by simp [hp] at h, ?_⟩
    simp [Fig.addTrace, Fig.addImage]
  | some i =>
    rw [add_player_image_both hp hl]
    refine ⟨rfl, rfl, fun i' h => ?_, ?_⟩
    · injection h with hi
      subst hi
      simp [Fig.addTrace, Fig.addImage, photoLayer, logoLayer]
    · simp [Fig.addTrace, Fig.addImage]

/-- C7 witness: a concrete player with decodable photo and emblem gets
the two overlays at the specified anchors and sizes plus one
hit-target. -/
theorem claim_C7_witness :
    demoDecoder "goodlogo" = some "logoimg"
    ∧ ((add_player_image demoDecoder initialFig 0 0 "n" "goodphoto" "goodlogo" 2).2 = false
      ∧ (add_player_image demoDecoder initialFig 0 0 "n" "goodphoto" "goodlogo" 2).1.traces
          = initialFig.traces ++
            [{ x := 0, y := 0, mode := "markers+text", marker_size := 50,
               marker_color := "rgba(0,0,0,0)", text := "n",
               hover := "$" ++ toString (2 : ℚ) ++ "<extra></extra>" }]
      ∧ (∀ i, demoDecoder "goodphoto" = some i →
          (add_player_image demoDecoder initialFig 0 0 "n" "goodphoto" "goodlogo" 2).1.images
            = initialFig.images ++
              [{ src := i, x := 0, y := 0, sizex := 15 / 100, sizey := 15 / 100,
                 xanchor := "center", yanchor := "middle" },
               { src := "logoimg", x := 0 + 1 / 100, y := 0 - 15 / 1000, sizex := 75 / 1000,
                 sizey := 75 / 1000, xanchor := "left", yanchor := "top" }])
      ∧ (add_player_image demoDecoder initialFig 0 0 "n" "goodphoto" "goodlogo" 2).1.images.length
          ≤ initialFig.images.length + 2) :=
  ⟨rfl, claim_C7 demoDecoder initialFig 0 0 "n" "goodphoto" "goodlogo" 2 "logoimg" rfl⟩

/-! ## C8: lineup request fail-fast -/

/-- C8: the lineup request fails exactly when the transport status code
is at least 300 or the logical status is not the success sentinel, in
either case surfacing the single generic failure message and producing
no result; otherwise it returns the tagged starters followed by the
tagged bench rows. -/
theorem claim_C8 (sc : Nat) (st : String) (players bench : List RawPlayer) :
    (get_line_up sc st players bench = Except.error ERROR_MSG
      ↔ 300 ≤ sc ∨ st ≠ "SUCCEEDED")
    ∧ (sc < 300 → st = "SUCCEEDED" →
        get_line_up sc st players bench
          = Except.ok (players.map (tagType "players") ++ bench.map (tagType "bench")))
    ∧ (∀ e, get_line_up sc st players bench = Except.error e → e = ERROR_MSG) := by
  unfold get_line_up
  split_ifs with h1 h2
  · simp_all
  · simp_all
  · constructor
    · simp [h1, h2]
    · exact ⟨fun _ _ => rfl, fun e h => by cases h⟩

/-- C8 witness: a concrete failing call (transport code 500) surfaces
the generic message, and a concrete succeeding call returns the tagged
concatenation. -/
theorem claim_C8_witness :
    (get_line_up 500 "SUCCEEDED" [] [] = Except.error ERROR_MSG
      ↔ 300 ≤ 500 ∨ "SUCCEEDED" ≠ "SUCCEEDED")
    ∧ (500 < 300 → "SUCCEEDED" = "SUCCEEDED" →
        get_line_up 500 "SUCCEEDED" [] []
          = Except.ok ((List.map (tagType "players") []) ++ (List.map (tagType "bench") [])))
    ∧ (∀ e, get_line_up 500 "SUCCEEDED" [] [] = Except.error e → e = ERROR_MSG) :=
  claim_C8 500 "SUCCEEDED" [] []

/-! ## Layout lemmas -/

lemma lookupPos_error_eq {pos : PosMap} {k e : String}
    (h : lookupPos pos k = Except.error e) : e = k := by
  unfold lookupPos at h
  cases hf : pos.find? (fun x => x.1 = k) with
  | none =>
    rw [hf] at h
    injection h with h'
    exact h'.symm
  | some a =>
    rw [hf] at h
    injection h

lemma layoutPlayer_error_elim {l : List Player} {pos : PosMap} {c : Bool}
    {p : Player} {e : String}
    (h : layoutPlayer l pos c p = Except.error e) :
    lookupPos pos (plotKey l p) = Except.error e := by
  unfold layoutPlayer at h
  cases hk : lookupPos pos (plotKey l p) with
  | error e2 =>
    rw [hk] at h
    injection h with h'
    subst h'
    rfl
  | ok xy =>
    rw [hk] at h
    injection h

lemma layoutPlayer_ok_elim {l : List Player} {pos : PosMap} {c : Bool}
    {p : Player} {o : LaidOutPlayer}
    (h : layoutPlayer l pos c p = Except.ok o) :
    o.player = p ∧ o.rank = rankOf l p ∧ o.plot = plotKey l p
    ∧ lookupPos pos (plotKey l p) = Except.ok (o.x, o.y)
    ∧ o.captain = (c && decide (maxPoints l = some p.points))
    ∧ o.name = (if o.captain then "(C) " ++ p.name else p.name)
    ∧ o.badge_x = o.x + 25 / 1000 ∧ o.badge_y = o.y - 75 / 1000 := by
  unfold layoutPlayer at h
  cases hk : lookupPos pos (plotKey l p) with
  | error e =>
    rw [hk] at h
    injection h
  | ok xy =>
    rw [hk] at h
    injection h with h'
    subst h'
    exact ⟨rfl, rfl, rfl, rfl, rfl, rfl, rfl, rfl⟩

lemma layoutRows_ok_props {l : List Player} {pos : PosMap} {c : Bool}
    {rows : List Player} {out : List LaidOutPlayer}
    (h : layoutRows l pos c rows = Except.ok out) :
    out.length = rows.length ∧ out.map LaidOutPlayer.player = rows
    ∧ ∀ o ∈ out, layoutPlayer l pos c o.player = Except.ok o := by
  induction rows generalizing out with
  | nil =>
    unfold layoutRows at h
    injection h with h'
    subst h'
    exact ⟨rfl, rfl, fun o ho => absurd ho (List.not_mem_nil o)⟩
  | cons p ps ih =>
    unfold layoutRows at h
    cases hp : layoutPlayer l pos c p with
    | error e =>
      rw [hp] at h
      injection h
    | ok lo =>
      rw [hp] at h
      cases hr : layoutRows l pos c ps with
      | error e =>
        rw [hr] at h
        injection h
      | ok rest =>
        rw [hr] at h
        injection h with h'
        subst h'
        obtain ⟨hlen, hmap, hall⟩ := ih hr
        have hpl : lo.player = p := (layoutPlayer_ok_elim hp).1
        refine ⟨by simp [hlen], by simp [hmap, hpl], ?_⟩
        intro o ho
        rcases List.mem_cons.1 ho with h1 | h2
        · subst h1
          rw [hpl]
          exact hp
        · exact hall o h2

lemma layoutRows_error_elim {l : List Player} {pos : PosMap} {c : Bool}
    {rows : List Player} {e : String}
    (h : layoutRows l pos c rows = Except.error e) :
    ∃ p ∈ rows, layoutPlayer l pos c p = Except.error e := by
  induction rows with
  | nil =>
    unfold layoutRows at h
    injection h
  | cons p ps ih =>
    unfold layoutRows at h
    cases hp : layoutPlayer l pos c p with
    | error e2 =>
      rw [hp] at h
      injection h with h'
      subst h'
      exact ⟨p, List.mem_cons_self p ps, hp⟩
    | ok lo =>
      rw [hp] at h
      cases hr : layoutRows l pos c ps with
      | error e2 =>
        rw [hr] at h
        injection h with h'
        subst h'
        obtain ⟨q, hq, hqe⟩ := ih hr
        exact ⟨q, List.mem_cons_of_mem p hq, hqe⟩
      | ok rest =>
        rw [hr] at h
        injection h

lemma layoutRows_ok_of_all {l : List Player} {pos : PosMap} {c : Bool}
    {rows : List Player}
    (h : ∀ p ∈ rows, ∃ xy, lookupPos pos (plotKey l p) = Except.ok xy) :
    ∃ out, layoutRows l pos c rows = Except.ok out := by
  induction rows with
  | nil => exact ⟨[], rfl⟩
  | cons p ps ih =>
    obtain ⟨xy, hxy⟩ := h p (List.mem_cons_self p ps)
    obtain ⟨rest, hrest⟩ := ih (fun q hq => h q (List.mem_cons_of_mem p hq))
    have hlp : ∃ lo, layoutPlayer l pos c p = Except.ok lo := by
      unfold layoutPlayer
      rw [hxy]
      exact ⟨_, rfl⟩
    obtain ⟨lo, hlp⟩ := hlp
    exact ⟨lo :: rest, by unfold layoutRows; rw [hlp, hrest]⟩

/-! ## C5: missing plot keys fail the layout, present keys succeed -/

/-- C5: a plot key absent from the position map forces the layout to
fail: the layout errors exactly when some player's plot key is absent,
every error names an absent plot key of some player, and an error
carries no laid-out result (so a player is never silently dropped or
default-placed); when every player's plot key is present the layout
succeeds with one laid-out row per player, each carrying the coordinate
the map assigns to its plot key. -/
theorem claim_C5 (l : List Player) (c : Bool) (pos : PosMap) :
    ((∃ p ∈ l, ∀ xy, lookupPos pos (plotKey l p) ≠ Except.ok xy)
      ↔ ∃ e, transform_data l c pos = Except.error e)
    ∧ (∀ e, transform_data l c pos = Except.error e →
      (∃ p ∈ l, plotKey l p = e) ∧ lookupPos pos e = Except.error e)
    ∧ ((∀ p ∈ l, ∃ xy, lookupPos pos (plotKey l p) = Except.ok xy) →
      ∃ out, transform_data l c pos = Except.ok out
        ∧ out.length = l.length
        ∧ ∀ o ∈ out, lookupPos pos o.plot = Except.ok (o.x, o.y)) := by
  have herr : ∀ e, transform_data l c pos = Except.error e →
      (∃ p ∈ l, plotKey l p = e) ∧ lookupPos pos e = Except.error e := by
    intro e he
    obtain ⟨p, hp, hpe⟩ := layoutRows_error_elim he
    have hk := layoutPlayer_error_elim hpe
    have hek := lookupPos_error_eq hk
    subst hek
    exact ⟨⟨p, hp, rfl⟩, hk⟩
  refine ⟨⟨?_, ?_⟩, herr, ?_⟩
  · rintro ⟨p, hp, habs⟩
    cases ht : transform_data l c pos with
    | error e => exact ⟨e, rfl⟩
    | ok out =>
      exfalso
      obtain ⟨hlen, hmap, hall⟩ := layoutRows_ok_props ht
      have hpm : p ∈ out.map LaidOutPlayer.player := by
        rw [hmap]
        exact hp
      obtain ⟨o, ho, hop⟩ := List.mem_map.1 hpm
      have hxy := (layoutPlayer_ok_elim (hall o ho)).2.2.2.1
      rw [hop] at hxy
      exact habs (o.x, o.y) hxy
  · rintro ⟨e, he⟩
    obtain ⟨⟨p, hp, hpe⟩, hlook⟩ := herr e he
    refine ⟨p, hp, ?_⟩
    intro xy h
    rw [hpe, hlook] at h
    exact Except.noConfusion h
  · intro hall
    obtain ⟨out, hout⟩ := layoutRows_ok_of_all (l := l) (c := c) hall
    obtain ⟨hlen, hmap, hrows⟩ := layoutRows_ok_props hout
    refine ⟨out, hout, by simp [hlen], ?_⟩
    intro o ho
    obtain ⟨-, -, hplot, hxy, -⟩ := layoutPlayer_ok_elim (hrows o ho)
    rw [hplot]
    exact hxy

/-- C5 witness: both branches at concrete inputs.  The four-player demo
lineup against the three-slot position map has an absent plot key
("bench-midfielder-1"), so the layout fails and its error names that
key; the three-player demo lineup against the same map has every key
present, so the layout succeeds with a coordinate for every player. -/
theorem claim_C5_witness :
    (∃ p ∈ demoLineup4,
      ∀ xy, lookupPos demoPos (plotKey demoLineup4 p) ≠ Except.ok xy)
    ∧ (∃ e, transform_data demoLineup4 true demoPos = Except.error e)
    ∧ transform_data demoLineup4 true demoPos
        = Except.error "bench-midfielder-1"
    ∧ (∀ e, transform_data demoLineup4 true demoPos = Except.error e →
      (∃ p ∈ demoLineup4, plotKey demoLineup4 p = e)
        ∧ lookupPos demoPos e = Except.error e)
    ∧ (∃ out, transform_data demoLineup true demoPos = Except.ok out
        ∧ out.length = demoLineup.length
        ∧ ∀ o ∈ out, lookupPos demoPos o.plot = Except.ok (o.x, o.y)) := by
  have herr : lookupPos demoPos (plotKey demoLineup4 (benchMid 4 "P4" 5))
      = Except.error "bench-midfielder-1" := rfl
  have habs : ∃ p ∈ demoLineup4,
      ∀ xy, lookupPos demoPos (plotKey demoLineup4 p) ≠ Except.ok xy := by
    refine ⟨benchMid 4 "P4" 5, by decide, ?_⟩
    intro xy h
    rw [herr] at h
    exact Except.noConfusion h
  refine ⟨habs, (claim_C5 demoLineup4 true demoPos).1.mp habs, rfl,
    (claim_C5 demoLineup4 true demoPos).2.1,
    (claim_C5 demoLineup true demoPos).2.2 ?_⟩
  intro p hp
  have hp' : p = midfielder 101 "Alpha" 5 ∨ p = midfielder 102 "Beta" 9
      ∨ p = midfielder 103 "Gamma" 5 := by simpa [demoLineup] using hp
  rcases hp' with rfl | rfl | rfl
  · exact ⟨(1 / 4, 1 / 2), rfl⟩
  · exact ⟨(2 / 4, 1 / 2), rfl⟩
  · exact ⟨(3 / 4, 1 / 2), rfl⟩

/-! ## C4: captain marking -/

/-- C4: with captaining enabled, a laid-out row is marked captain
exactly when its player's points attain the maximum over the entire
lineup (starters and bench together); captains get the "(C) " name
marker, non-captains keep their name, and the number of captains equals
the number of players attaining the lineup-wide maximum. -/
theorem claim_C4 (l : List Player) (pos : PosMap) (out : List LaidOutPlayer)
    (h : transform_data l true pos = Except.ok out) :
    (∀ o ∈ out,
      (o.captain = true ↔ ∀ q ∈ l, q.points ≤ o.player.points)
      ∧ (o.captain = true → o.name = "(C) " ++ o.player.name)
      ∧ (o.captain = false → o.name = o.player.name))
    ∧ out.countP (fun o => o.captain)
        = l.countP (fun p => decide (∀ q ∈ l, q.points ≤ p.points)) := by
  obtain ⟨hlen, hmap, hrows⟩ := layoutRows_ok_props h
  have hmem : ∀ o ∈ out, o.player ∈ l := by
    intro o ho
    rw [← hmap]
    exact List.mem_map_of_mem LaidOutPlayer.player ho
  have hcapt : ∀ o ∈ out,
      (o.captain = true ↔ ∀ q ∈ l, q.points ≤ o.player.points) := by
    intro o ho
    obtain ⟨-, -, -, -, hc, -⟩ := layoutPlayer_ok_elim (hrows o ho)
    rw [hc]
    simp only [Bool.true_and, decide_eq_true_eq]
    constructor
    · intro hmax q hq
      exact List.le_maximum_of_mem (List.mem_map_of_mem Player.points hq) hmax
    · intro hle
      apply List.maximum_eq_coe_iff.2
      refine ⟨List.mem_map_of_mem Player.points (hmem o ho), ?_⟩
      intro b hb
      obtain ⟨q, hq, hqb⟩ := List.mem_map.1 hb
      rw [← hqb]
      exact hle q hq
  constructor
  · intro o ho
    obtain ⟨-, -, -, -, hc, hn, -⟩ := layoutPlayer_ok_elim (hrows o ho)
    refine ⟨hcapt o ho, ?_, ?_⟩
    · intro hct
      rw [hn, hct]
      simp
    · intro hcf
      rw [hn, hcf]
      simp
  · have h1 : out.countP (fun o => o.captain)
        = out.countP (fun o => decide (∀ q ∈ l, q.points ≤ o.player.points)) := by
      apply List.countP_congr
      intro o ho
      simp only [decide_eq_true_eq]
      constructor
      · intro hc
        exact (hcapt o ho).1 hc
      · intro hp
        exact (hcapt o ho).2 hp
    rw [h1, ← hmap, List.countP_map]
    rfl

/-- C4 witness: the four-player demo (points [10, 8, 10, 5], one bench
player) lays out successfully, the captain equivalence and naming hold,
and exactly two rows are marked captain. -/
theorem claim_C4_witness :
    transform_data demoLineup4 true demoPos4 = Except.ok demoOut4
    ∧ ((∀ o ∈ demoOut4,
        (o.captain = true ↔ ∀ q ∈ demoLineup4, q.points ≤ o.player.points)
        ∧ (o.captain = true → o.name = "(C) " ++ o.player.name)
        ∧ (o.captain = false → o.name = o.player.name))
      ∧ demoOut4.countP (fun o => o.captain)
          = demoLineup4.countP
              (fun p => decide (∀ q ∈ demoLineup4, q.points ≤ p.points)))
    ∧ demoOut4.countP (fun o => o.captain) = 2 :=
  ⟨rfl, claim_C4 demoLineup4 demoPos4 demoOut4 rfl, by decide⟩

/-! ## C1: composition and completion order -/

lemma composeAll_ok (decode : Decoder) (fig : Fig) (rows : List LaidOutPlayer)
    (h : ∀ r ∈ rows, (decode r.player.club_badge).isSome) :
    composeAll decode fig rows
      = ({ images := fig.images ++ (rows.map (playerLayers decode)).flatten,
           traces := fig.traces ++ rows.map playerTrace }, false) := by
  induction rows generalizing fig with
  | nil => simp [composeAll]
  | cons r rs ih =>
    obtain ⟨j, hj⟩ := Option.isSome_iff_exists.1 (h r (List.mem_cons_self r rs))
    have hrest := fun fg => ih fg (fun q hq => h q (List.mem_cons_of_mem r hq))
    cases hp : decode r.player.photo with
    | some i =>
      simp only [composeAll, add_player_image_both hp hj]
      rw [hrest]
      simp [Fig.addImage, Fig.addTrace, playerLayers, playerTrace, hp, hj]
    | none =>
      simp only [composeAll, add_player_image_fallback hp hj]
      rw [hrest]
      simp [Fig.addImage, Fig.addTrace, playerLayers, playerTrace, hp, hj]

/-- C1 counterexample: with two laid-out rows whose assets all decode,
supplying the fetch results in the two possible completion orders yields
two different scenes (the hit-target sequences differ), because the
gather loop appends layers in completion order, not in ascending-id
order. -/
theorem claim_C1_counterexample :
    List.Perm [demoRow 1 "A" 0 0, demoRow 2 "B" 1 1]
      [demoRow 2 "B" 1 1, demoRow 1 "A" 0 0]
    ∧ (composeAll demoDecoder initialFig
        [demoRow 1 "A" 0 0, demoRow 2 "B" 1 1]).1.traces.map (fun t => t.text)
      ≠ (composeAll demoDecoder initialFig
        [demoRow 2 "B" 1 1, demoRow 1 "A" 0 0]).1.traces.map (fun t => t.text) := by
  constructor
  · decide
  · decide

/-- C1 amended: composition is order-independent only up to permutation
of the layer lists: for any two completion orders of the same laid-out
rows (all emblems decodable, so no exception escapes), the image lists
and the trace lists of the two scenes are permutations of each other and
the escape flags agree — but the sequences themselves follow completion
order, so the scenes are not identical. -/
theorem claim_C1 (decode : Decoder) (rows₁ rows₂ : List LaidOutPlayer)
    (hperm : rows₁.Perm rows₂)
    (h : ∀ r ∈ rows₁, (decode r.player.club_badge).isSome) :
    (composeAll decode initialFig rows₁).1.images.Perm
        (composeAll decode initialFig rows₂).1.images
    ∧ (composeAll decode initialFig rows₁).1.traces.Perm
        (composeAll decode initialFig rows₂).1.traces
    ∧ (composeAll decode initialFig rows₁).2
        = (composeAll decode initialFig rows₂).2 := by
  have h₂ : ∀ r ∈ rows₂, (decode r.player.club_badge).isSome :=
    fun r hr => h r (hperm.mem_iff.2 hr)
  rw [composeAll_ok decode initialFig rows₁ h, composeAll_ok decode initialFig rows₂ h₂]
  refine ⟨?_, ?_, rfl⟩
  · exact List.Perm.append_left _ ((hperm.map (playerLayers decode)).flatten)
  · exact List.Perm.append_left _ (hperm.map playerTrace)

/-- C1 witness: the two-row instance of the amended statement, with the
permutation and decodability hypotheses discharged concretely. -/
theorem claim_C1_witness :
    List.Perm [demoRow 1 "A" 0 0, demoRow 2 "B" 1 1]
      [demoRow 2 "B" 1 1, demoRow 1 "A" 0 0]
    ∧ (∀ r ∈ [demoRow 1 "A" 0 0, demoRow 2 "B" 1 1],
        (demoDecoder r.player.club_badge).isSome)
    ∧ ((composeAll demoDecoder initialFig
          [demoRow 1 "A" 0 0, demoRow 2 "B" 1 1]).1.images.Perm
        (composeAll demoDecoder initialFig
          [demoRow 2 "B" 1 1, demoRow 1 "A" 0 0]).1.images
      ∧ (composeAll demoDecoder initialFig
          [demoRow 1 "A" 0 0, demoRow 2 "B" 1 1]).1.traces.Perm
        (composeAll demoDecoder initialFig
          [demoRow 2 "B" 1 1, demoRow 1 "A" 0 0]).1.traces
      ∧ (composeAll demoDecoder initialFig
          [demoRow 1 "A" 0 0, demoRow 2 "B" 1 1]).2
          = (composeAll demoDecoder initialFig
          [demoRow 2 "B" 1 1, demoRow 1 "A" 0 0]).2) :=
  ⟨by decide, by decide,
    claim_C1 demoDecoder [demoRow 1 "A" 0 0, demoRow 2 "B" 1 1]
      [demoRow 2 "B" 1 1, demoRow 1 "A" 0 0] (by decide) (by decide)⟩

/-! ## C3: the end-to-end three-midfielder example (corrected keys) -/

/-- C3 counterexample: the demo lineup's plot keys are
"players-midfielder-1/2/3" — the code tags the starter collection with
the string "players", not "starters", so the keys claimed in the spec do
not occur. -/
theorem claim_C3_counterexample :
    (transform_data demoLineup true demoPos).toOption.map
        (fun out => out.map LaidOutPlayer.plot)
      = some ["players-midfielder-1", "players-midfielder-2",
              "players-midfielder-3"]
    ∧ ["players-midfielder-1", "players-midfielder-2", "players-midfielder-3"]
        ≠ ["starters-midfielder-1", "starters-midfielder-2",
           "starters-midfielder-3"] := by
  exact ⟨rfl, by decide⟩

/-- C3 amended: the plot key is the string "{type}-{position}-{rank}"
(the starter collection is tagged "players"); in the end-to-end example
(ids [101, 102, 103], points [5, 9, 5], captaining enabled) the ranks
are 1, 2, 3 by ascending id, the plot keys are
"players-midfielder-1/2/3", and player 102 is the sole captain, marked
with the "(C) " name marker. -/
theorem claim_C3 :
    (∀ l p, plotKey l p = p.type ++ "-" ++ p.pos ++ "-" ++ toString (rankOf l p))
    ∧ (transform_data demoLineup true demoPos).toOption.map
        (fun out => out.map (fun o => (o.player.id, o.rank, o.plot, o.captain, o.name)))
      = some [(101, 1, "players-midfielder-1", false, "Alpha"),
              (102, 2, "players-midfielder-2", true, "(C) Beta"),
              (103, 3, "players-midfielder-3", false, "Gamma")] :=
  ⟨fun _ _ => rfl, rfl⟩

/-! ## C9: fetch results are independent of completion order -/

lemma find?_eq_of_perm {α : Type} (p : α → Bool) {l₁ l₂ : List α}
    (h : l₁.Perm l₂)
    (huniq : ∀ a ∈ l₁, ∀ b ∈ l₁, p a = true → p b = true → a = b) :
    l₁.find? p = l₂.find? p := by
  cases h₁ : l₁.find? p with
  | none =>
    cases h₂ : l₂.find? p with
    | none => rfl
    | some b =>
      have hb := List.find?_some h₂
      have hbm : b ∈ l₂ := List.mem_of_find?_eq_some h₂
      exact absurd hb (List.find?_eq_none.1 h₁ b (h.mem_iff.2 hbm))
  | some a =>
    have ha := List.find?_some h₁
    have ham : a ∈ l₁ := List.mem_of_find?_eq_some h₁
    cases h₂ : l₂.find? p with
    | none =>
      exact absurd ha (List.find?_eq_none.1 h₂ a (h.mem_iff.1 ham))
    | some b =>
      have hb := List.find?_some h₂
      have hbm : b ∈ l₁ := h.mem_iff.2 (List.mem_of_find?_eq_some h₂)
      rw [huniq a ham b hbm ha hb]

/-- C9: the per-player asset mapping is independent of the order in
which the fetch tasks complete: for any two completion orders of the
same duplicate-free player set, the gathered mapping from player id to
(photo bytes, emblem bytes) agrees at every id — so a pool of size 1 and
a pool of size 5 (any schedules whatsoever) produce byte-for-byte equal
results. -/
theorem claim_C9 (fetch : AssetSource) (players order₁ order₂ : List Player)
    (h₁ : order₁.Perm players) (h₂ : order₂.Perm players)
    (hnd : (players.map Player.id).Nodup) (i : Nat) :
    fetchMapping fetch order₁ i = fetchMapping fetch order₂ i := by
  unfold fetchMapping
  have hfind :
      (order₁.map (transform_row fetch)).find? (fun e => e.1 = i)
        = (order₂.map (transform_row fetch)).find? (fun e => e.1 = i) := by
    apply find?_eq_of_perm _
      ((h₁.map (transform_row fetch)).trans (h₂.map (transform_row fetch)).symm)
    intro a ha b hb hpa hpb
    obtain ⟨pa, hpa', rfl⟩ := List.mem_map.1 ha
    obtain ⟨pb, hpb', rfl⟩ := List.mem_map.1 hb
    have hia : pa.id = i := by simpa [transform_row] using hpa
    have hib : pb.id = i := by simpa [transform_row] using hpb
    have hid : pa.id = pb.id := by rw [hia, hib]
    have : pa = pb :=
      List.inj_on_of_nodup_map hnd (h₁.mem_iff.1 hpa') (h₁.mem_iff.1 hpb') hid
    rw [this]
  rw [hfind]

/-- C9 witness: two concrete completion orders of the demo lineup give
the same asset bytes for player 102. -/
theorem claim_C9_witness :
    List.Perm demoLineup demoLineup
    ∧ List.Perm demoLineup.reverse demoLineup
    ∧ (demoLineup.map Player.id).Nodup
    ∧ fetchMapping (fun u => "bytes-" ++ u) demoLineup 102
        = fetchMapping (fun u => "bytes-" ++ u) demoLineup.reverse 102 :=
  ⟨by decide, by decide, by decide,
    claim_C9 (fun u => "bytes-" ++ u) demoLineup demoLineup demoLineup.reverse
      (by decide) (by decide) (by decide) 102⟩

/-! ## C2: rank assignment within (position, type) groups -/

lemma countP_disjoint_le {α : Type} (A B C : α → Bool) (g : List α)
    (hAC : ∀ r, A r = true → C r = true) (hBC : ∀ r, B r = true → C r = true)
    (hAB : ∀ r, ¬(A r = true ∧ B r = true)) :
    g.countP A + g.countP B ≤ g.countP C := by
  induction g with
  | nil => simp
  | cons a g ih =>
    by_cases hA : A a = true
    · have hC := hAC a hA
      have hB : B a = false := by
        rcases Bool.eq_false_or_eq_true (B a) with h | h
        · exact absurd ⟨hA, h⟩ (hAB a)
        · exact h
      simp [List.countP_cons, hA, hB, hC]
      omega
    · have hA' : A a = false := by simpa using hA
      by_cases hB : B a = true
      · have hC := hBC a hB
        simp [List.countP_cons, hA', hB, hC]
        omega
      · have hB' : B a = false := by simpa using hB
        by_cases hC : C a = true
        · simp [List.countP_cons, hA', hB', hC]
          omega
        · have hC' : C a = false := by simpa using hC
          simp [List.countP_cons, hA', hB', hC']
          omega

lemma groupOf_eq_of_mem {l : List Player} {pos ty : String} {p : Player}
    (hp : p.pos = pos) (ht : p.type = ty) :
    groupOf l p = l.filter (fun q => q.pos = pos ∧ q.type = ty) := by
  unfold groupOf
  apply List.filter_congr
  intro q hq
  rw [hp, ht]

lemma group_ids_nodup {l : List Player} (hnd : (l.map Player.id).Nodup)
    (pos ty : String) :
    ((l.filter (fun q => q.pos = pos ∧ q.type = ty)).map Player.id).Nodup :=
  List.Nodup.sublist ((List.filter_sublist l).map Player.id) hnd

lemma count_id_eq_one {l : List Player} (hnd : (l.map Player.id).Nodup)
    {pos ty : String} {p : Player}
    (hp : p ∈ l.filter (fun q => q.pos = pos ∧ q.type = ty)) :
    (l.filter (fun q => q.pos = pos ∧ q.type = ty)).countP
      (fun q => q.id = p.id) = 1 := by
  have gnd := group_ids_nodup hnd pos ty
  have hgnodup : (l.filter (fun q => q.pos = pos ∧ q.type = ty)).Nodup :=
    List.Nodup.of_map Player.id gnd
  have h2 : (l.filter (fun q => q.pos = pos ∧ q.type = ty)).countP
      (fun q => q.id = p.id)
      = (l.filter (fun q => q.pos = pos ∧ q.type = ty)).count p := by
    apply List.countP_congr
    intro q hq
    simp only [decide_eq_true_eq, beq_iff_eq]
    constructor
    · intro h
      exact List.inj_on_of_nodup_map gnd hq hp h
    · intro h
      rw [h]
  rw [h2]
  exact List.count_eq_one_of_mem hgnodup hp

lemma rank_formula {l : List Player} (hnd : (l.map Player.id).Nodup)
    {pos ty : String} {p : Player}
    (hp : p ∈ l.filter (fun q => q.pos = pos ∧ q.type = ty)) :
    rankOf l p
      = (l.filter (fun q => q.pos = pos ∧ q.type = ty)).countP
          (fun q => q.id < p.id) + 1 := by
  obtain ⟨hpl, hpq⟩ := List.mem_filter.1 hp
  have hppos : p.pos = pos ∧ p.type = ty := by simpa using hpq
  have hgrp := groupOf_eq_of_mem (l := l) hppos.1 hppos.2
  have heq1 := count_id_eq_one hnd hp
  unfold rankOf
  rw [hgrp, ← List.countP_eq_length_filter, ← List.countP_eq_length_filter, heq1]
  omega

lemma rank_lt_of_id_lt {l : List Player} (hnd : (l.map Player.id).Nodup)
    {pos ty : String} {p q : Player}
    (hp : p ∈ l.filter (fun r => r.pos = pos ∧ r.type = ty))
    (hq : q ∈ l.filter (fun r => r.pos = pos ∧ r.type = ty))
    (hlt : p.id < q.id) : rankOf l p < rankOf l q := by
  rw [rank_formula hnd hp, rank_formula hnd hq]
  have hle := countP_disjoint_le (fun r => decide (r.id < p.id))
    (fun r => decide (r.id = p.id)) (fun r => decide (r.id < q.id))
    (l.filter (fun r => r.pos = pos ∧ r.type = ty))
    (fun r h => by simp only [decide_eq_true_eq] at h ⊢; omega)
    (fun r h => by simp only [decide_eq_true_eq] at h ⊢; omega)
    (fun r h => by simp only [decide_eq_true_eq] at h; omega)
  rw [count_id_eq_one hnd hp] at hle
  omega

lemma rank_le_length {l : List Player} (hnd : (l.map Player.id).Nodup)
    {pos ty : String} {p : Player}
    (hp : p ∈ l.filter (fun r => r.pos = pos ∧ r.type = ty)) :
    rankOf l p ≤ (l.filter (fun r => r.pos = pos ∧ r.type = ty)).length := by
  rw [rank_formula hnd hp]
  have hle := countP_disjoint_le (fun r => decide (r.id < p.id))
    (fun r => decide (r.id = p.id)) (fun _ => true)
    (l.filter (fun r => r.pos = pos ∧ r.type = ty))
    (fun r _ => rfl) (fun r _ => rfl)
    (fun r h => by simp only [decide_eq_true_eq] at h; omega)
  rw [count_id_eq_one hnd hp, List.countP_true] at hle
  omega

/-- C2: for a lineup with no duplicate player ids, within every
(position, type) group the assigned ranks are a permutation of the dense
sequence 1..n, they are strictly increasing in player id, and the rank
of every player is invariant under any permutation of the input rows. -/
theorem claim_C2 (l l' : List Player) (hperm : l.Perm l')
    (hnd : (l.map Player.id).Nodup) (pos ty : String) :
    ((l.filter (fun q => q.pos = pos ∧ q.type = ty)).map (rankOf l)).Perm
        (List.range' 1 (l.filter (fun q => q.pos = pos ∧ q.type = ty)).length)
    ∧ (∀ p ∈ l.filter (fun q => q.pos = pos ∧ q.type = ty),
        ∀ q ∈ l.filter (fun q => q.pos = pos ∧ q.type = ty),
          p.id < q.id → rankOf l p < rankOf l q)
    ∧ (∀ p, rankOf l p = rankOf l' p) := by
  have gnd := group_ids_nodup hnd pos ty
  have hgnodup : (l.filter (fun q => q.pos = pos ∧ q.type = ty)).Nodup :=
    List.Nodup.of_map Player.id gnd
  have hmono : ∀ p ∈ l.filter (fun q => q.pos = pos ∧ q.type = ty),
      ∀ q ∈ l.filter (fun q => q.pos = pos ∧ q.type = ty),
        p.id < q.id → rankOf l p < rankOf l q :=
    fun p hp q hq hlt => rank_lt_of_id_lt hnd hp hq hlt
  refine ⟨?_, hmono, ?_⟩
  · have hranks_nodup :
        ((l.filter (fun q => q.pos = pos ∧ q.type = ty)).map (rankOf l)).Nodup := by
      apply List.Nodup.map_on _ hgnodup
      intro p hp q hq hrank
      by_contra hne
      have hidne : p.id ≠ q.id :=
        fun h => hne (List.inj_on_of_nodup_map gnd hp hq h)
      rcases Nat.lt_or_ge p.id q.id with h | h
      · exact absurd hrank (Nat.ne_of_lt (hmono p hp q hq h))
      · have hqp : q.id < p.id := Nat.lt_of_le_of_ne h (Ne.symm hidne)
        exact absurd hrank.symm (Nat.ne_of_lt (hmono q hq p hp hqp))
    have hsubset : ∀ r ∈ (l.filter (fun q => q.pos = pos ∧ q.type = ty)).map (rankOf l),
        r ∈ List.range' 1 (l.filter (fun q => q.pos = pos ∧ q.type = ty)).length := by
      intro r hr
      obtain ⟨p, hp, rfl⟩ := List.mem_map.1 hr
      apply List.mem_range'_1.2
      refine ⟨?_, ?_⟩
      · rw [rank_formula hnd hp]
        omega
      · have := rank_le_length hnd hp
        omega
    have hlen :
        (List.range' 1 (l.filter (fun q => q.pos = pos ∧ q.type = ty)).length).length
          ≤ ((l.filter (fun q => q.pos = pos ∧ q.type = ty)).map (rankOf l)).length := by
      simp [List.length_range']
    exact (List.subperm_of_subset hranks_nodup hsubset).perm_of_length_le hlen
  · intro p
    simp only [rankOf, groupOf]
    rw [((hperm.filter _).filter _).length_eq, ((hperm.filter _).filter _).length_eq]

/-- C2 witness: the demo lineup (distinct ids 101, 102, 103) instantiated
at the (midfielder, players) group, with a reversed input order as the
permuted lineup. -/
theorem claim_C2_witness :
    List.Perm demoLineup demoLineup.reverse
    ∧ (demoLineup.map Player.id).Nodup
    ∧ (((demoLineup.filter (fun q => q.pos = "midfielder" ∧ q.type = "players")).map
          (rankOf demoLineup)).Perm
        (List.range' 1
          (demoLineup.filter (fun q => q.pos = "midfielder" ∧ q.type = "players")).length)
      ∧ (∀ p ∈ demoLineup.filter (fun q => q.pos = "midfielder" ∧ q.type = "players"),
          ∀ q ∈ demoLineup.filter (fun q => q.pos = "midfielder" ∧ q.type = "players"),
            p.id < q.id → rankOf demoLineup p < rankOf demoLineup q)
      ∧ (∀ p, rankOf demoLineup p = rankOf demoLineup.reverse p)) :=
  ⟨by decide, by decide,
    claim_C2 demoLineup demoLineup.reverse (by decide) (by decide) "midfielder" "players"⟩

end Palpiteiro
